import Mathlib

/-!
# ta-lib (Go) — `utils` package: validation layer, record conversion, numeric primitives

A shallow embedding of `utils/types.go`, `utils/validation.go`, `utils/feed.go`
(`OHLCV`, `GetOHLCVSlices`) and `utils/math.go` (`RoundPos`, `RoundNeg`,
`MaxInSlice`, `MinInSlice`, `Sum`, `Mean`, `Variance`).

Modelling conventions

* Go `int` values are `Int`.  The only integer arithmetic in the embedded code is
  `endIdx - startIdx + 1`, which is evaluated only after the checks
  `0 <= startIdx <= endIdx < len(inReal)` have passed; its value then lies in
  `[1, len(inReal)]`, so no 64-bit wrap-around can occur and the unbounded
  integer is exact (`outNBElement_range` below).
* A `[]float64` slice is a `List F`.  The validators and `GetOHLCVSlices` never
  inspect or compute with the elements, so `F` is left abstract there.
* `MaxInSlice` / `MinInSlice` only compare elements; they are embedded over any
  type with a decidable `<`, and `math.NaN()` is taken as a parameter.
* `RoundPos`, `RoundNeg`, `Sum`, `Mean` and `Variance` compute with `float64`.  They are
  embedded over `F64`, a model of IEEE-754 binary64: NaN, the two infinities, the two
  zeros, and the finite values (carried as the rational they denote), with every
  operation rounding its exact result to nearest, ties to even (`F64.rnd`).  Each
  operation is rounded on its own (no fused multiply-add).
-/

set_option autoImplicit false

namespace TALib

/-! ## `utils/types.go` -/

/-- `MAType` is a Go `int`. -/
abbrev MAType := Int

def SMA : MAType := 0
def EMA : MAType := 1
def WMA : MAType := 2
def DEMA : MAType := 3
def TEMA : MAType := 4
def TRIMA : MAType := 5
def KAMA : MAType := 6
def MAMA : MAType := 7

/-- `RetCode`: the six return codes, in `iota` order. -/
inductive RetCode where
  | Success
  | InvalidParameter
  | OutOfRangeStartIndex
  | OutOfRangeEndIndex
  | AllocError
  | InternalError
  deriving DecidableEq, Repr

/-- The integer value of a `RetCode` (`iota` numbering). -/
def RetCode.toInt : RetCode → Int
  | .Success => 0
  | .InvalidParameter => 1
  | .OutOfRangeStartIndex => 2
  | .OutOfRangeEndIndex => 3
  | .AllocError => 4
  | .InternalError => 5

open RetCode

/-! ## `utils/validation.go` -/

section Validation

variable {F : Type}

/-- `ValidateParams` (validation.go, lines 4–31). -/
def ValidateParams (startIdx endIdx : Int) (inReal : List F) (optInTimePeriod : Int) :
    RetCode × Int × Int :=
  if inReal.length = 0 then (InvalidParameter, 0, 0)
  else if startIdx < 0 then (OutOfRangeStartIndex, 0, 0)
  else if endIdx < startIdx then (OutOfRangeEndIndex, 0, 0)
  else if endIdx ≥ (inReal.length : Int) then (OutOfRangeEndIndex, 0, 0)
  else if optInTimePeriod ≤ 0 then (InvalidParameter, 0, 0)
  else
    let outBegIdx := startIdx
    let outNBElement := endIdx - startIdx + 1
    (Success, outBegIdx, outNBElement)

/-- `ValidatePrice` (validation.go, lines 34–61). -/
def ValidatePrice (startIdx endIdx : Int) (high low close : List F) : RetCode × Int × Int :=
  if high.length = 0 ∨ low.length = 0 ∨ close.length = 0 then (InvalidParameter, 0, 0)
  else if high.length ≠ low.length ∨ high.length ≠ close.length then (InvalidParameter, 0, 0)
  else if startIdx < 0 then (OutOfRangeStartIndex, 0, 0)
  else if endIdx < startIdx then (OutOfRangeEndIndex, 0, 0)
  else if endIdx ≥ (high.length : Int) then (OutOfRangeEndIndex, 0, 0)
  else
    let outBegIdx := startIdx
    let outNBElement := endIdx - startIdx + 1
    (Success, outBegIdx, outNBElement)

/-- `ValidateVolume` (validation.go, lines 64–91). -/
def ValidateVolume (startIdx endIdx : Int) (price volume : List F) : RetCode × Int × Int :=
  if price.length = 0 ∨ volume.length = 0 then (InvalidParameter, 0, 0)
  else if price.length ≠ volume.length then (InvalidParameter, 0, 0)
  else if startIdx < 0 then (OutOfRangeStartIndex, 0, 0)
  else if endIdx < startIdx then (OutOfRangeEndIndex, 0, 0)
  else if endIdx ≥ (price.length : Int) then (OutOfRangeEndIndex, 0, 0)
  else
    let outBegIdx := startIdx
    let outNBElement := endIdx - startIdx + 1
    (Success, outBegIdx, outNBElement)

end Validation

/-- `ValidateMAType` (validation.go, lines 94–99). -/
def ValidateMAType (maType : MAType) : RetCode :=
  if maType < SMA ∨ maType > MAMA then InvalidParameter else Success

/-! ## `utils/feed.go` -/

/-- `OHLCV`: a single candlestick data point (feed.go, lines 20–27); `F` stands for
`float64`. -/
structure OHLCV (F : Type) where
  Time : Int
  Open : F
  High : F
  Low : F
  Close : F
  Volume : F

section Feed

variable {F : Type} [Zero F]

/-- One iteration of the loop body of `GetOHLCVSlices` at index `i` with record `d`
(feed.go, lines 291–297): writes the five fields at position `i`. -/
def GetOHLCVSlices.body (st : List F × List F × List F × List F × List F)
    (p : Nat × OHLCV F) : List F × List F × List F × List F × List F :=
  match st, p with
  | (open_, high, low, close, volume), (i, d) =>
    (open_.set i d.Open, high.set i d.High, low.set i d.Low, close.set i d.Close,
      volume.set i d.Volume)

/-- `GetOHLCVSlices` (feed.go, lines 284–300): five zero-filled slices of length
`len(data)` (`make`), then `for i, d := range data` writes the fields of `d` at index `i`.
Returns `(open, high, low, close, volume)`. -/
def GetOHLCVSlices (data : List (OHLCV F)) : List F × List F × List F × List F × List F :=
  let open_ := List.replicate data.length (0 : F)
  let high := List.replicate data.length (0 : F)
  let low := List.replicate data.length (0 : F)
  let close := List.replicate data.length (0 : F)
  let volume := List.replicate data.length (0 : F)
  data.enum.foldl GetOHLCVSlices.body (open_, high, low, close, volume)

end Feed

/-! ## `utils/math.go` -/

section MinMax

variable {α : Type} [LT α] [DecidableRel ((· < ·) : α → α → Prop)]

/-- `MaxInSlice` (math.go, lines 57–68).  `nan` stands for `math.NaN()`, returned on the
empty slice; otherwise `max := values[0]` and the loop over `values[1:]` replaces `max`
by `v` whenever `v > max`. -/
def MaxInSlice (nan : α) (values : List α) : α :=
  match values with
  | [] => nan
  | v0 :: rest => rest.foldl (fun max v => if v > max then v else max) v0

/-- `MinInSlice` (math.go, lines 71–82).  `nan` stands for `math.NaN()`, returned on the
empty slice; otherwise `min := values[0]` and the loop over `values[1:]` replaces `min`
by `v` whenever `v < min`. -/
def MinInSlice (nan : α) (values : List α) : α :=
  match values with
  | [] => nan
  | v0 :: rest => rest.foldl (fun min v => if v < min then v else min) v0

end MinMax

/-! ### IEEE-754 binary64 -/

/-- A `float64` value: NaN, `+Inf`, `-Inf`, `-0`, or a finite value given by the rational
it denotes (`fin 0` is `+0`).  NaN payloads are not distinguished. -/
inductive F64 where
  | nan
  | posInf
  | negInf
  | negZero
  | fin (q : ℚ)
  deriving DecidableEq, Repr

namespace F64

/-- `log2Fuel n n` is `⌊log₂ n⌋` for `n ≥ 1` (the fuel `n` always suffices). -/
def log2Fuel : Nat → Nat → Nat
  | 0, _ => 0
  | fuel + 1, n => if n < 2 then 0 else log2Fuel fuel (n / 2) + 1

/-- The binary exponent `⌊log₂ a⌋` of a positive rational `a`: with `k` the difference of
the bit lengths of numerator and denominator it is `k` or `k - 1`. -/
def ilog2 (a : ℚ) : ℤ :=
  let k : ℤ := (log2Fuel a.num.natAbs a.num.natAbs : ℤ) - (log2Fuel a.den a.den : ℤ)
  if (2 : ℚ) ^ k ≤ a then k else k - 1

/-- Nearest integer to `s ≥ 0`, ties to the even neighbour. -/
def roundHalfEven (s : ℚ) : ℤ :=
  let f := ⌊s⌋
  let r := s - f
  if r < 1 / 2 then f
  else if 1 / 2 < r then f + 1
  else if f % 2 = 0 then f else f + 1

/-- Rounding of an exact result to binary64, round-to-nearest-even: 53 significant bits,
least exponent `2^-1074` (subnormals), overflow to an infinity from `2^1024` on, and a
result that rounds to zero keeps the sign of `q`. -/
def rnd (q : ℚ) : F64 :=
  if q = 0 then fin 0
  else
    let a := |q|
    let e := max (ilog2 a - 52) (-1074)
    let r := (roundHalfEven (a / (2 : ℚ) ^ e) : ℚ) * (2 : ℚ) ^ e
    if (2 : ℚ) ^ (1024 : ℤ) ≤ r then (if q < 0 then negInf else posInf)
    else if r = 0 then (if q < 0 then negZero else fin 0)
    else fin (if q < 0 then -r else r)

/-- The sign bit. -/
def isNeg : F64 → Bool
  | negInf => true
  | negZero => true
  | fin q => decide (q < 0)
  | _ => false

def isInf : F64 → Bool
  | posInf => true
  | negInf => true
  | _ => false

def isZero : F64 → Bool
  | negZero => true
  | fin q => decide (q = 0)
  | _ => false

/-- Unary minus: flips the sign bit. -/
def neg : F64 → F64
  | nan => nan
  | posInf => negInf
  | negInf => posInf
  | negZero => fin 0
  | fin q => if q = 0 then negZero else fin (-q)

/-- Addition `x + y`.  An exact zero sum of finite values is `+0`, except `-0 + -0 = -0`. -/
def add : F64 → F64 → F64
  | nan, _ => nan
  | _, nan => nan
  | posInf, negInf => nan
  | negInf, posInf => nan
  | posInf, _ => posInf
  | _, posInf => posInf
  | negInf, _ => negInf
  | _, negInf => negInf
  | negZero, negZero => negZero
  | negZero, fin b => fin b
  | fin a, negZero => fin a
  | fin a, fin b => rnd (a + b)

/-- Subtraction `x - y`, which is `x + (-y)`. -/
def sub (x y : F64) : F64 := add x (neg y)

/-- Multiplication `x * y`; the sign of the result is the exclusive or of the signs. -/
def mul (x y : F64) : F64 :=
  match x, y with
  | nan, _ => nan
  | _, nan => nan
  | fin a, fin b =>
    if a = 0 ∨ b = 0 then (if isNeg x != isNeg y then negZero else fin 0) else rnd (a * b)
  | _, _ =>
    if (isInf x && isZero y) || (isZero x && isInf y) then nan
    else if isInf x || isInf y then (if isNeg x != isNeg y then negInf else posInf)
    else (if isNeg x != isNeg y then negZero else fin 0)

/-- Division `x / y`; the sign of the result is the exclusive or of the signs. -/
def div (x y : F64) : F64 :=
  match x, y with
  | nan, _ => nan
  | _, nan => nan
  | fin a, fin b =>
    if b = 0 then (if a = 0 then nan else if isNeg x != isNeg y then negInf else posInf)
    else if a = 0 then (if isNeg x != isNeg y then negZero else fin 0)
    else rnd (a / b)
  | _, _ =>
    if (isInf x && isInf y) || (isZero x && isZero y) then nan
    else if isInf x || isZero y then (if isNeg x != isNeg y then negInf else posInf)
    else (if isNeg x != isNeg y then negZero else fin 0)

/-- `math.Floor`: exact on finite values; NaN, `±Inf` and `±0` are returned unchanged. -/
def floor : F64 → F64
  | fin q => fin ⌊q⌋
  | x => x

/-- `math.Ceil`, which Go defines as `-Floor(-x)`. -/
def ceil (x : F64) : F64 := neg (floor (neg x))

/-- The conversion `float64(n)` of an integer. -/
def ofInt (n : ℤ) : F64 := rnd n

/-- `Exact q`: the rational `q` is a finite `float64` value, i.e. rounding returns it
unchanged. -/
def Exact (q : ℚ) : Prop := rnd q = fin q

instance (q : ℚ) : Decidable (Exact q) := inferInstanceAs (Decidable (rnd q = fin q))

end F64

open F64

/-! ### The primitives of `utils/math.go` over `float64` -/

/-- `RoundPos` (math.go, lines 11–13): `math.Floor(x + 0.5)`. -/
def RoundPos (x : F64) : F64 := floor (add x (fin 0.5))

/-- `RoundNeg` (math.go, lines 16–18): `math.Ceil(x - 0.5)`. -/
def RoundNeg (x : F64) : F64 := ceil (sub x (fin 0.5))

/-- `Sum` (math.go, lines 85–91): `sum := 0.0`, then `sum += v` for each `v`. -/
def Sum (values : List F64) : F64 :=
  values.foldl (fun sum v => add sum v) (fin 0)

/-- `Mean` (math.go, lines 94–99): NaN on the empty slice, otherwise
`Sum(values) / float64(len(values))`. -/
def Mean (values : List F64) : F64 :=
  if values.length = 0 then nan
  else div (Sum values) (ofInt values.length)

/-- `Variance` (math.go, lines 102–113): NaN on the empty slice; otherwise `sum` starts at
zero, the loop does `diff := v - mean; sum += diff * diff`, and the result is
`sum / float64(len(values))`. -/
def Variance (values : List F64) (mean : F64) : F64 :=
  if values.length = 0 then nan
  else
    div (values.foldl (fun sum v => let diff := sub v mean; add sum (mul diff diff)) (fin 0))
      (ofInt values.length)

/-! ## Theorems -/

section ValidationTheorems

variable {F : Type}

/-- On the only path where `endIdx - startIdx + 1` is evaluated, its value lies in
`[1, len]`, so the Go `int` computation cannot overflow. -/
theorem outNBElement_range (startIdx endIdx : Int) (n : Nat)
    (h0 : 0 ≤ startIdx) (h1 : startIdx ≤ endIdx) (h2 : endIdx < n) :
    1 ≤ endIdx - startIdx + 1 ∧ endIdx - startIdx + 1 ≤ n := by
  omega

/-- C1. `ValidateParams` returns `Success` iff the input is non-empty,
`0 <= startIdx <= endIdx < len(inReal)` and `optInTimePeriod > 0`; whenever it returns
`Success` the result is `(Success, startIdx, endIdx - startIdx + 1)`, and that result is
the same for every other positive lookback. -/
theorem ValidateParams_success_iff (startIdx endIdx : Int) (inReal : List F)
    (optInTimePeriod : Int) :
    ((ValidateParams startIdx endIdx inReal optInTimePeriod).1 = Success ↔
      (inReal ≠ [] ∧ 0 ≤ startIdx ∧ startIdx ≤ endIdx ∧ endIdx < (inReal.length : Int)
        ∧ 0 < optInTimePeriod)) ∧
    ((ValidateParams startIdx endIdx inReal optInTimePeriod).1 = Success →
      ValidateParams startIdx endIdx inReal optInTimePeriod
        = (Success, startIdx, endIdx - startIdx + 1) ∧
      ∀ p : Int, 0 < p →
        ValidateParams startIdx endIdx inReal p
          = ValidateParams startIdx endIdx inReal optInTimePeriod) := by
  have hne : inReal ≠ [] ↔ inReal.length ≠ 0 := by simp
  rw [hne]
  unfold ValidateParams
  refine ⟨?_, ?_⟩
  · split_ifs <;> simp only [reduceCtorEq, false_iff, true_iff] <;> omega
  · split_ifs <;> simp only [reduceCtorEq, false_implies, true_implies, true_and]
    intro p hp
    rw [if_neg (by omega)]

/-- Witness for C1 at `startIdx = 1`, `endIdx = 3`, a four-element input, lookback 5. -/
theorem ValidateParams_success_iff_witness :
    ValidateParams 1 3 [(10 : Int), 20, 30, 40] 5 = (Success, 1, 3) ∧
    ValidateParams 1 3 [(10 : Int), 20, 30, 40] 14 = ValidateParams 1 3 [(10 : Int), 20, 30, 40] 5 :=
  have h := (ValidateParams_success_iff 1 3 [(10 : Int), 20, 30, 40] 5).2 (by decide)
  ⟨h.1, h.2 14 (by decide)⟩

/-- C2 (as stated) fails: `endIdx < startIdx` and `endIdx >= length` are two different
rejection conditions, the first input violates only the former and the second only the
latter, yet both are rejected with the same code `OutOfRangeEndIndex`.  Likewise a
length mismatch among companions (`ValidatePrice`) and a non-positive lookback
(`ValidateParams`), each violated alone, are both rejected with `InvalidParameter`. -/
theorem rejection_codes_not_distinct :
    -- input A = (startIdx 1, endIdx 0, two elements, lookback 1): only `endIdx < startIdx`
    (([10, 20] : List Int) ≠ [] ∧ ¬ ((1 : Int) < 0) ∧ (0 : Int) < 1 ∧
      ¬ ((0 : Int) ≥ (([10, 20] : List Int).length : Int)) ∧ ¬ ((1 : Int) ≤ 0)) ∧
    -- input B = (startIdx 0, endIdx 2, two elements, lookback 1): only `endIdx >= length`
    (([10, 20] : List Int) ≠ [] ∧ ¬ ((0 : Int) < 0) ∧ ¬ ((2 : Int) < 0) ∧
      (2 : Int) ≥ (([10, 20] : List Int).length : Int) ∧ ¬ ((1 : Int) ≤ 0)) ∧
    (ValidateParams 1 0 [(10 : Int), 20] 1).1 = OutOfRangeEndIndex ∧
    (ValidateParams 0 2 [(10 : Int), 20] 1).1 = OutOfRangeEndIndex ∧
    (ValidateParams 1 0 [(10 : Int), 20] 1).1 = (ValidateParams 0 2 [(10 : Int), 20] 1).1 ∧
    -- input C = (0, 0, high of 2, low of 1, close of 2): only the length mismatch;
    -- input D = (0, 1, two elements, lookback 0): only the non-positive lookback
    (ValidatePrice 0 0 [(10 : Int), 20] [5] [7, 8]).1 = InvalidParameter ∧
    (ValidateParams 0 1 [(10 : Int), 20] 0).1 = InvalidParameter ∧
    (ValidatePrice 0 0 [(10 : Int), 20] [5] [7, 8]).1 = (ValidateParams 0 1 [(10 : Int), 20] 0).1 := by
  decide

/-- C2 (amended). The six rejection conditions map to three codes.  An input violating
only `startIdx < 0` is rejected with `OutOfRangeStartIndex`; one violating only
`endIdx < startIdx` or only `endIdx >= length` with `OutOfRangeEndIndex`; one violating
only the lookback condition or only the equal-length condition, and every input with an
empty sequence, with `InvalidParameter`.  The three codes are pairwise different and
different from `Success`. -/
theorem rejection_codes_grouped (startIdx endIdx : Int) (inReal high low close price
    volume : List F) (optInTimePeriod : Int) :
    -- `ValidateParams`
    (inReal = [] → (ValidateParams startIdx endIdx inReal optInTimePeriod).1 = InvalidParameter) ∧
    (inReal ≠ [] → startIdx < 0 → startIdx ≤ endIdx → endIdx < (inReal.length : Int) →
      0 < optInTimePeriod →
      (ValidateParams startIdx endIdx inReal optInTimePeriod).1 = OutOfRangeStartIndex) ∧
    (inReal ≠ [] → 0 ≤ startIdx → endIdx < startIdx → endIdx < (inReal.length : Int) →
      0 < optInTimePeriod →
      (ValidateParams startIdx endIdx inReal optInTimePeriod).1 = OutOfRangeEndIndex) ∧
    (inReal ≠ [] → 0 ≤ startIdx → startIdx ≤ endIdx → endIdx ≥ (inReal.length : Int) →
      0 < optInTimePeriod →
      (ValidateParams startIdx endIdx inReal optInTimePeriod).1 = OutOfRangeEndIndex) ∧
    (inReal ≠ [] → 0 ≤ startIdx → startIdx ≤ endIdx → endIdx < (inReal.length : Int) →
      optInTimePeriod ≤ 0 →
      (ValidateParams startIdx endIdx inReal optInTimePeriod).1 = InvalidParameter) ∧
    -- `ValidatePrice`
    ((high = [] ∨ low = [] ∨ close = []) →
      (ValidatePrice startIdx endIdx high low close).1 = InvalidParameter) ∧
    (high ≠ [] → low ≠ [] → close ≠ [] → ¬ (high.length = low.length ∧ high.length = close.length) →
      (ValidatePrice startIdx endIdx high low close).1 = InvalidParameter) ∧
    (high ≠ [] → high.length = low.length → high.length = close.length →
      startIdx < 0 → startIdx ≤ endIdx → endIdx < (high.length : Int) →
      (ValidatePrice startIdx endIdx high low close).1 = OutOfRangeStartIndex) ∧
    (high ≠ [] → high.length = low.length → high.length = close.length →
      0 ≤ startIdx → endIdx < startIdx → endIdx < (high.length : Int) →
      (ValidatePrice startIdx endIdx high low close).1 = OutOfRangeEndIndex) ∧
    (high ≠ [] → high.length = low.length → high.length = close.length →
      0 ≤ startIdx → startIdx ≤ endIdx → endIdx ≥ (high.length : Int) →
      (ValidatePrice startIdx endIdx high low close).1 = OutOfRangeEndIndex) ∧
    -- `ValidateVolume`
    ((price = [] ∨ volume = []) →
      (ValidateVolume startIdx endIdx price volume).1 = InvalidParameter) ∧
    (price ≠ [] → volume ≠ [] → price.length ≠ volume.length →
      (ValidateVolume startIdx endIdx price volume).1 = InvalidParameter) ∧
    (price ≠ [] → price.length = volume.length →
      startIdx < 0 → startIdx ≤ endIdx → endIdx < (price.length : Int) →
      (ValidateVolume startIdx endIdx price volume).1 = OutOfRangeStartIndex) ∧
    (price ≠ [] → price.length = volume.length →
      0 ≤ startIdx → endIdx < startIdx → endIdx < (price.length : Int) →
      (ValidateVolume startIdx endIdx price volume).1 = OutOfRangeEndIndex) ∧
    (price ≠ [] → price.length = volume.length →
      0 ≤ startIdx → startIdx ≤ endIdx → endIdx ≥ (price.length : Int) →
      (ValidateVolume startIdx endIdx price volume).1 = OutOfRangeEndIndex) ∧
    -- the three codes are pairwise different, and none is `Success`
    (InvalidParameter.toInt ≠ OutOfRangeStartIndex.toInt ∧
      InvalidParameter.toInt ≠ OutOfRangeEndIndex.toInt ∧
      OutOfRangeStartIndex.toInt ≠ OutOfRangeEndIndex.toInt ∧
      Success.toInt ≠ InvalidParameter.toInt ∧ Success.toInt ≠ OutOfRangeStartIndex.toInt ∧
      Success.toInt ≠ OutOfRangeEndIndex.toInt) := by
  simp only [ne_eq, ← List.length_eq_zero]
  unfold ValidateParams ValidatePrice ValidateVolume
  refine ⟨?_, ?_, ?_, ?_, ?_, ?_, ?_, ?_, ?_, ?_, ?_, ?_, ?_, ?_, ?_, by decide⟩ <;>
    split_ifs <;> simp only [reduceCtorEq, not_false_eq_true, imp_false, implies_true] <;> omega

/-- Witness for C2 (amended): one input per rejection condition, each violating only it. -/
theorem rejection_codes_grouped_witness :
    (ValidateParams (-1) 0 [(10 : Int), 20] 1).1 = OutOfRangeStartIndex ∧
    (ValidateParams 1 0 [(10 : Int), 20] 1).1 = OutOfRangeEndIndex ∧
    (ValidateParams 0 2 [(10 : Int), 20] 1).1 = OutOfRangeEndIndex ∧
    (ValidateParams 0 1 [(10 : Int), 20] 0).1 = InvalidParameter ∧
    (ValidatePrice 0 0 [(10 : Int), 20] [5] [7, 8]).1 = InvalidParameter ∧
    (ValidateVolume 0 0 [(10 : Int), 20] []).1 = InvalidParameter :=
  ⟨(rejection_codes_grouped (-1) 0 [(10 : Int), 20] [] [] [] [] [] 1).2.1
      (by decide) (by decide) (by decide) (by decide) (by decide),
   (rejection_codes_grouped 1 0 [(10 : Int), 20] [] [] [] [] [] 1).2.2.1
      (by decide) (by decide) (by decide) (by decide) (by decide),
   (rejection_codes_grouped 0 2 [(10 : Int), 20] [] [] [] [] [] 1).2.2.2.1
      (by decide) (by decide) (by decide) (by decide) (by decide),
   (rejection_codes_grouped 0 1 [(10 : Int), 20] [] [] [] [] [] 0).2.2.2.2.1
      (by decide) (by decide) (by decide) (by decide) (by decide),
   (rejection_codes_grouped 0 0 ([] : List Int) [10, 20] [5] [7, 8] [] [] 0).2.2.2.2.2.2.1
      (by decide) (by decide) (by decide) (by decide),
   (rejection_codes_grouped 0 0 ([] : List Int) [] [] [] [10, 20] [] 0).2.2.2.2.2.2.2.2.2.2.1
      (Or.inr rfl)⟩

/-- C3. `ValidateParams` returns the code of the first failing check, in the order
empty input (`InvalidParameter`), `startIdx < 0` (`OutOfRangeStartIndex`),
`endIdx < startIdx` or `endIdx >= len` (`OutOfRangeEndIndex`), `optInTimePeriod <= 0`
(`InvalidParameter`), otherwise `Success`; it never returns `AllocError` or
`InternalError`. -/
theorem ValidateParams_first_failing_check (startIdx endIdx : Int) (inReal : List F)
    (optInTimePeriod : Int) :
    (inReal = [] → (ValidateParams startIdx endIdx inReal optInTimePeriod).1 = InvalidParameter) ∧
    (inReal ≠ [] → startIdx < 0 →
      (ValidateParams startIdx endIdx inReal optInTimePeriod).1 = OutOfRangeStartIndex) ∧
    (inReal ≠ [] → 0 ≤ startIdx → (endIdx < startIdx ∨ endIdx ≥ (inReal.length : Int)) →
      (ValidateParams startIdx endIdx inReal optInTimePeriod).1 = OutOfRangeEndIndex) ∧
    (inReal ≠ [] → 0 ≤ startIdx → startIdx ≤ endIdx → endIdx < (inReal.length : Int) →
      optInTimePeriod ≤ 0 →
      (ValidateParams startIdx endIdx inReal optInTimePeriod).1 = InvalidParameter) ∧
    (inReal ≠ [] → 0 ≤ startIdx → startIdx ≤ endIdx → endIdx < (inReal.length : Int) →
      0 < optInTimePeriod →
      (ValidateParams startIdx endIdx inReal optInTimePeriod).1 = Success) ∧
    (ValidateParams startIdx endIdx inReal optInTimePeriod).1 ≠ AllocError ∧
    (ValidateParams startIdx endIdx inReal optInTimePeriod).1 ≠ InternalError := by
  simp only [ne_eq, ← List.length_eq_zero]
  unfold ValidateParams
  refine ⟨?_, ?_, ?_, ?_, ?_, ?_, ?_⟩ <;>
    split_ifs <;> simp only [reduceCtorEq, not_false_eq_true, imp_false, implies_true] <;> omega

/-- Witness for C3: one concrete input for each of the five outcomes of the check chain. -/
theorem ValidateParams_first_failing_check_witness :
    (ValidateParams (-1) 9 ([] : List Int) 0).1 = InvalidParameter ∧
    (ValidateParams (-1) 9 [(10 : Int), 20] 0).1 = OutOfRangeStartIndex ∧
    (ValidateParams 0 2 [(10 : Int), 20] 0).1 = OutOfRangeEndIndex ∧
    (ValidateParams 0 1 [(10 : Int), 20] 0).1 = InvalidParameter ∧
    (ValidateParams 0 1 [(10 : Int), 20] 3).1 = Success :=
  ⟨(ValidateParams_first_failing_check (-1) 9 ([] : List Int) 0).1 rfl,
   (ValidateParams_first_failing_check (-1) 9 [(10 : Int), 20] 0).2.1 (by decide) (by decide),
   (ValidateParams_first_failing_check 0 2 [(10 : Int), 20] 0).2.2.1 (by decide) (by decide)
     (by decide),
   (ValidateParams_first_failing_check 0 1 [(10 : Int), 20] 0).2.2.2.1 (by decide) (by decide)
     (by decide) (by decide) (by decide),
   (ValidateParams_first_failing_check 0 1 [(10 : Int), 20] 3).2.2.2.2.1 (by decide) (by decide)
     (by decide) (by decide) (by decide)⟩

/-- C4. For each of `ValidateParams`, `ValidatePrice` and `ValidateVolume`: when the
returned code is not `Success`, the returned begin index and element count are both 0. -/
theorem validators_failure_zeroed (startIdx endIdx : Int) (inReal high low close price
    volume : List F) (optInTimePeriod : Int) :
    ((ValidateParams startIdx endIdx inReal optInTimePeriod).1 ≠ Success →
      (ValidateParams startIdx endIdx inReal optInTimePeriod).2 = (0, 0)) ∧
    ((ValidatePrice startIdx endIdx high low close).1 ≠ Success →
      (ValidatePrice startIdx endIdx high low close).2 = (0, 0)) ∧
    ((ValidateVolume startIdx endIdx price volume).1 ≠ Success →
      (ValidateVolume startIdx endIdx price volume).2 = (0, 0)) := by
  unfold ValidateParams ValidatePrice ValidateVolume
  refine ⟨?_, ?_, ?_⟩ <;> split_ifs <;>
    simp only [ne_eq, not_true_eq_false, false_implies, implies_true]

/-- Witness for C4: a rejected call of each validator carries `(0, 0)`. -/
theorem validators_failure_zeroed_witness :
    (ValidateParams 3 1 [(10 : Int), 20, 30, 40] 5).2 = (0, 0) ∧
    (ValidatePrice 0 1 [(10 : Int), 20] [5] [7, 8]).2 = (0, 0) ∧
    (ValidateVolume 0 2 [(10 : Int), 20] [100, 200]).2 = (0, 0) :=
  have h := validators_failure_zeroed 3 1 [(10 : Int), 20, 30, 40] [10, 20] [5] [7, 8]
    [10, 20] [100, 200] 5
  have h2 := validators_failure_zeroed 0 1 [(10 : Int), 20, 30, 40] [10, 20] [5] [7, 8]
    [10, 20] [100, 200] 5
  have h3 := validators_failure_zeroed 0 2 [(10 : Int), 20, 30, 40] [10, 20] [5] [7, 8]
    [10, 20] [100, 200] 5
  ⟨h.1 (by decide), h2.2.1 (by decide), h3.2.2 (by decide)⟩

/-- C5. `ValidatePrice` returns `Success` iff `high`, `low`, `close` are all non-empty, of
one common length `n`, and `0 <= startIdx <= endIdx < n`; `ValidateVolume` likewise for
`price` and `volume`.  On `Success` both return `(startIdx, endIdx - startIdx + 1)`; an
empty or length-mismatched companion set is rejected with `InvalidParameter` whatever
the indices are. -/
theorem companion_validators_accept_iff (startIdx endIdx : Int) (high low close price
    volume : List F) :
    ((ValidatePrice startIdx endIdx high low close).1 = Success ↔
      (high ≠ [] ∧ low ≠ [] ∧ close ≠ [] ∧
        ∃ n : Nat, high.length = n ∧ low.length = n ∧ close.length = n ∧
          0 ≤ startIdx ∧ startIdx ≤ endIdx ∧ endIdx < (n : Int))) ∧
    ((ValidateVolume startIdx endIdx price volume).1 = Success ↔
      (price ≠ [] ∧ volume ≠ [] ∧
        ∃ n : Nat, price.length = n ∧ volume.length = n ∧
          0 ≤ startIdx ∧ startIdx ≤ endIdx ∧ endIdx < (n : Int))) ∧
    ((ValidatePrice startIdx endIdx high low close).1 = Success →
      ValidatePrice startIdx endIdx high low close
        = (Success, startIdx, endIdx - startIdx + 1)) ∧
    ((ValidateVolume startIdx endIdx price volume).1 = Success →
      ValidateVolume startIdx endIdx price volume
        = (Success, startIdx, endIdx - startIdx + 1)) ∧
    ((high = [] ∨ low = [] ∨ close = [] ∨ high.length ≠ low.length ∨ high.length ≠ close.length
        ∨ low.length ≠ close.length) →
      ValidatePrice startIdx endIdx high low close = (InvalidParameter, 0, 0)) ∧
    ((price = [] ∨ volume = [] ∨ price.length ≠ volume.length) →
      ValidateVolume startIdx endIdx price volume = (InvalidParameter, 0, 0)) := by
  simp only [ne_eq, ← List.length_eq_zero, exists_and_left, exists_eq_left']
  unfold ValidatePrice ValidateVolume
  refine ⟨?_, ?_, ?_, ?_, ?_, ?_⟩ <;> split_ifs <;>
    simp only [reduceCtorEq, false_iff, true_iff, false_implies, true_implies, implies_true,
      Prod.mk.injEq, false_and, imp_false, and_self, true_and, not_false_eq_true]
  all_goals omega

/-- Witness for C5: an accepted call of each companion validator and a rejected one. -/
theorem companion_validators_accept_iff_witness :
    ValidatePrice 1 2 [(12 : Int), 13, 14] [9, 10, 11] [10, 12, 13] = (Success, 1, 2) ∧
    ValidateVolume 0 2 [(10 : Int), 12, 13] [100, 200, 300] = (Success, 0, 3) ∧
    ValidatePrice 0 0 [(12 : Int), 13, 14] [9, 10] [10, 12, 13] = (InvalidParameter, 0, 0) ∧
    ValidateVolume 0 0 [(10 : Int), 12, 13] [] = (InvalidParameter, 0, 0) :=
  ⟨(companion_validators_accept_iff 1 2 [(12 : Int), 13, 14] [9, 10, 11] [10, 12, 13]
      [10, 12, 13] [100, 200, 300]).2.2.1 (by decide),
   (companion_validators_accept_iff 0 2 [(12 : Int), 13, 14] [9, 10, 11] [10, 12, 13]
      [10, 12, 13] [100, 200, 300]).2.2.2.1 (by decide),
   (companion_validators_accept_iff 0 0 [(12 : Int), 13, 14] [9, 10] [10, 12, 13]
      [10, 12, 13] []).2.2.2.2.1 (by decide),
   (companion_validators_accept_iff 0 0 [(12 : Int), 13, 14] [9, 10] [10, 12, 13]
      [10, 12, 13] []).2.2.2.2.2 (by decide)⟩

/-- C6. Whenever a validator returns `(Success, beginIndex, elementCount)`:
`elementCount >= 1`, `beginIndex >= startIdx`, `beginIndex + elementCount - 1 <= endIdx`,
and every `i` with `beginIndex <= i < beginIndex + elementCount` satisfies
`0 <= i < length` for every sequence passed to that validator. -/
theorem validators_range_in_bounds (startIdx endIdx : Int) (inReal high low close price
    volume : List F) (optInTimePeriod beginIndex elementCount : Int) :
    (ValidateParams startIdx endIdx inReal optInTimePeriod
        = (Success, beginIndex, elementCount) →
      1 ≤ elementCount ∧ startIdx ≤ beginIndex ∧ beginIndex + elementCount - 1 ≤ endIdx ∧
      ∀ i : Int, beginIndex ≤ i → i < beginIndex + elementCount →
        0 ≤ i ∧ i < (inReal.length : Int)) ∧
    (ValidatePrice startIdx endIdx high low close = (Success, beginIndex, elementCount) →
      1 ≤ elementCount ∧ startIdx ≤ beginIndex ∧ beginIndex + elementCount - 1 ≤ endIdx ∧
      ∀ i : Int, beginIndex ≤ i → i < beginIndex + elementCount →
        0 ≤ i ∧ i < (high.length : Int) ∧ i < (low.length : Int) ∧ i < (close.length : Int)) ∧
    (ValidateVolume startIdx endIdx price volume = (Success, beginIndex, elementCount) →
      1 ≤ elementCount ∧ startIdx ≤ beginIndex ∧ beginIndex + elementCount - 1 ≤ endIdx ∧
      ∀ i : Int, beginIndex ≤ i → i < beginIndex + elementCount →
        0 ≤ i ∧ i < (price.length : Int) ∧ i < (volume.length : Int)) := by
  unfold ValidateParams ValidatePrice ValidateVolume
  refine ⟨?_, ?_, ?_⟩ <;> split_ifs <;>
    simp only [reduceCtorEq, Prod.mk.injEq, false_and, true_and, false_implies] <;>
    rintro ⟨rfl, rfl⟩ <;> refine ⟨?_, ?_, ?_, ?_⟩ <;> intros <;> omega

/-- Witness for C6: the range reported for `ValidatePrice 1 2` on three-element
sequences is `[1, 2]`, inside all three sequences. -/
theorem validators_range_in_bounds_witness :
    (1 : Int) ≤ 2 ∧ (1 : Int) ≤ 1 ∧ (1 : Int) + 2 - 1 ≤ 2 ∧
      ∀ i : Int, 1 ≤ i → i < 1 + 2 →
        0 ≤ i ∧ i < (([(12 : Int), 13, 14] : List Int).length : Int) ∧
          i < (([(9 : Int), 10, 11] : List Int).length : Int) ∧
          i < (([(10 : Int), 12, 13] : List Int).length : Int) :=
  (validators_range_in_bounds 1 2 [(1 : Int)] [(12 : Int), 13, 14] [9, 10, 11] [10, 12, 13]
    [1] [1] 1 1 2).2.1 (by decide)

end ValidationTheorems

/-- C7. `ValidateMAType` returns `Success` iff `maType` is one of `SMA`, `EMA`, `WMA`,
`DEMA`, `TEMA`, `TRIMA`, `KAMA`, `MAMA`, i.e. iff `0 <= maType <= 7`; it returns
`InvalidParameter` for every other integer, and no other code. -/
theorem ValidateMAType_success_iff (maType : MAType) :
    (ValidateMAType maType = Success ↔
      (maType = SMA ∨ maType = EMA ∨ maType = WMA ∨ maType = DEMA ∨ maType = TEMA ∨
        maType = TRIMA ∨ maType = KAMA ∨ maType = MAMA)) ∧
    (ValidateMAType maType = Success ↔ (0 ≤ maType ∧ maType ≤ 7)) ∧
    (ValidateMAType maType = InvalidParameter ↔ (maType < 0 ∨ 7 < maType)) ∧
    (ValidateMAType maType = Success ∨ ValidateMAType maType = InvalidParameter) ∧
    (SMA = 0 ∧ EMA = 1 ∧ WMA = 2 ∧ DEMA = 3 ∧ TEMA = 4 ∧ TRIMA = 5 ∧ KAMA = 6 ∧ MAMA = 7) := by
  unfold ValidateMAType SMA EMA WMA DEMA TEMA TRIMA KAMA MAMA
  refine ⟨?_, ?_, ?_, ?_, by decide⟩ <;> split_ifs <;>
    simp only [reduceCtorEq, false_iff, true_iff, or_true, true_or, or_false]
  all_goals unfold MAType at *
  all_goals omega

section FeedTheorems

variable {F : Type}

/-- Writing `g d` at index `i` for each `(i, d)` of `enumFrom k data` into a buffer of
length `k + data.length` leaves the first `k` cells alone and fills the rest with
`data.map g`. -/
theorem foldl_set_enumFrom_getElem? {α : Type} (g : α → F) :
    ∀ (data : List α) (k : Nat) (acc : List F) (j : Nat), acc.length = k + data.length →
      ((data.enumFrom k).foldl (fun a p => a.set p.1 (g p.2)) acc)[j]? =
        if j < k then acc[j]? else (data.map g)[j - k]?
  | [], k, acc, j, hlen => by
    simp only [List.enumFrom_nil, List.foldl_nil, List.map_nil, List.getElem?_nil]
    split_ifs with h
    · rfl
    · exact List.getElem?_eq_none (by simp at hlen; omega)
  | d :: ds, k, acc, j, hlen => by
    simp only [List.enumFrom_cons, List.foldl_cons, List.map_cons]
    rw [foldl_set_enumFrom_getElem? g ds (k + 1) (acc.set k (g d)) j
      (by simp at hlen ⊢; omega)]
    rcases Nat.lt_trichotomy j k with h | h | h
    · rw [if_pos (by omega), if_pos h, List.getElem?_set_ne (by omega)]
    · subst h
      have hk : j < acc.length := by simp at hlen; omega
      rw [if_pos (by omega), if_neg (by omega), Nat.sub_self, List.getElem?_set_self hk,
        List.getElem?_cons_zero]
    · rw [if_neg (by omega), if_neg (by omega)]
      have : j - k = (j - (k + 1)) + 1 := by omega
      rw [this, List.getElem?_cons_succ]

/-- The loop of `GetOHLCVSlices` acts on each of the five buffers independently. -/
theorem foldl_body_components (l : List (Nat × OHLCV F)) :
    ∀ (o h lo c v : List F),
      l.foldl GetOHLCVSlices.body (o, h, lo, c, v) =
        (l.foldl (fun a p => a.set p.1 (OHLCV.Open p.2)) o,
         l.foldl (fun a p => a.set p.1 (OHLCV.High p.2)) h,
         l.foldl (fun a p => a.set p.1 (OHLCV.Low p.2)) lo,
         l.foldl (fun a p => a.set p.1 (OHLCV.Close p.2)) c,
         l.foldl (fun a p => a.set p.1 (OHLCV.Volume p.2)) v) := by
  induction l with
  | nil => intros; rfl
  | cons p ps ih =>
    intro o h lo c v
    obtain ⟨i, d⟩ := p
    simp only [List.foldl_cons, GetOHLCVSlices.body, ih]

/-- Filling a zeroed buffer of length `len(data)` index by index yields `data.map g`. -/
theorem foldl_set_enum_eq_map [Zero F] {α : Type} (g : α → F) (data : List α) :
    data.enum.foldl (fun a p => a.set p.1 (g p.2)) (List.replicate data.length (0 : F))
      = data.map g := by
  apply List.ext_getElem?
  intro j
  rw [List.enum, foldl_set_enumFrom_getElem? g data 0 _ j (by simp)]
  simp

/-- `GetOHLCVSlices` is the field-wise projection of the record list. -/
theorem GetOHLCVSlices_eq_map [Zero F] (data : List (OHLCV F)) :
    GetOHLCVSlices data =
      (data.map OHLCV.Open, data.map OHLCV.High, data.map OHLCV.Low, data.map OHLCV.Close,
        data.map OHLCV.Volume) := by
  unfold GetOHLCVSlices
  simp only [foldl_body_components, foldl_set_enum_eq_map]

/-- C8. `GetOHLCVSlices` converts a record list to parallel per-field slices: each of the
five returned slices has length `len(data)`, and for every index `i < len(data)` with
record `d = data[i]` they hold `d.Open`, `d.High`, `d.Low`, `d.Close`, `d.Volume` at
index `i`. -/
theorem GetOHLCVSlices_parallel [Zero F] (data : List (OHLCV F)) :
    ((GetOHLCVSlices data).1.length = data.length ∧
      (GetOHLCVSlices data).2.1.length = data.length ∧
      (GetOHLCVSlices data).2.2.1.length = data.length ∧
      (GetOHLCVSlices data).2.2.2.1.length = data.length ∧
      (GetOHLCVSlices data).2.2.2.2.length = data.length) ∧
    ∀ (i : Nat) (d : OHLCV F), data[i]? = some d →
      (GetOHLCVSlices data).1[i]? = some d.Open ∧
      (GetOHLCVSlices data).2.1[i]? = some d.High ∧
      (GetOHLCVSlices data).2.2.1[i]? = some d.Low ∧
      (GetOHLCVSlices data).2.2.2.1[i]? = some d.Close ∧
      (GetOHLCVSlices data).2.2.2.2[i]? = some d.Volume := by
  rw [GetOHLCVSlices_eq_map]
  refine ⟨by simp only [List.length_map, and_self], ?_⟩
  intro i d hd
  simp only [List.getElem?_map, hd, Option.map_some', and_self]

/-- Witness for C8: two records; index 1 of every slice holds the second record's field. -/
theorem GetOHLCVSlices_parallel_witness :
    (GetOHLCVSlices [(⟨100, 1, 4, 0, 3, 50⟩ : OHLCV Int), ⟨160, 3, 6, 2, 5, 70⟩]).1[1]? = some 3 ∧
    (GetOHLCVSlices [(⟨100, 1, 4, 0, 3, 50⟩ : OHLCV Int), ⟨160, 3, 6, 2, 5, 70⟩]).2.1[1]? = some 6 ∧
    (GetOHLCVSlices [(⟨100, 1, 4, 0, 3, 50⟩ : OHLCV Int), ⟨160, 3, 6, 2, 5, 70⟩]).2.2.1[1]? = some 2 ∧
    (GetOHLCVSlices [(⟨100, 1, 4, 0, 3, 50⟩ : OHLCV Int), ⟨160, 3, 6, 2, 5, 70⟩]).2.2.2.1[1]? = some 5 ∧
    (GetOHLCVSlices [(⟨100, 1, 4, 0, 3, 50⟩ : OHLCV Int), ⟨160, 3, 6, 2, 5, 70⟩]).2.2.2.2[1]? = some 70 :=
  (GetOHLCVSlices_parallel [(⟨100, 1, 4, 0, 3, 50⟩ : OHLCV Int), ⟨160, 3, 6, 2, 5, 70⟩]).2 1
    ⟨160, 3, 6, 2, 5, 70⟩ rfl

end FeedTheorems

section MinMaxTheorems

variable {α : Type} [Preorder α] [IsTotal α (· ≤ ·)]

/-- In a total preorder, `¬ a < b` gives `b ≤ a`. -/
theorem le_of_not_lt_total {a b : α} (h : ¬ a < b) : b ≤ a := by
  rcases IsTotal.total (r := (· ≤ ·)) a b with hab | hba
  · by_contra hba
    exact h (lt_of_le_not_le hab hba)
  · exact hba

variable [DecidableRel ((· < ·) : α → α → Prop)]

/-- Loop invariant of `MaxInSlice`: the running maximum is the seed or a scanned element,
and dominates the seed and every scanned element. -/
theorem max_loop_spec (rest : List α) :
    ∀ m : α,
      (rest.foldl (fun max v => if v > max then v else max) m = m ∨
        rest.foldl (fun max v => if v > max then v else max) m ∈ rest) ∧
      m ≤ rest.foldl (fun max v => if v > max then v else max) m ∧
      ∀ x ∈ rest, x ≤ rest.foldl (fun max v => if v > max then v else max) m := by
  induction rest with
  | nil => intro m; simp
  | cons v vs ih =>
    intro m
    simp only [List.foldl_cons, List.mem_cons, forall_eq_or_imp]
    by_cases hv : v > m
    · rw [if_pos hv]
      obtain ⟨h1, h2, h3⟩ := ih v
      refine ⟨Or.inr (h1.imp id id), le_trans (le_of_lt hv) h2, h2, h3⟩
    · rw [if_neg hv]
      obtain ⟨h1, h2, h3⟩ := ih m
      refine ⟨h1.imp id Or.inr, h2, le_trans (le_of_not_lt_total hv) h2, h3⟩

/-- Loop invariant of `MinInSlice`: the running minimum is the seed or a scanned element,
and is dominated by the seed and every scanned element. -/
theorem min_loop_spec (rest : List α) :
    ∀ m : α,
      (rest.foldl (fun min v => if v < min then v else min) m = m ∨
        rest.foldl (fun min v => if v < min then v else min) m ∈ rest) ∧
      rest.foldl (fun min v => if v < min then v else min) m ≤ m ∧
      ∀ x ∈ rest, rest.foldl (fun min v => if v < min then v else min) m ≤ x := by
  induction rest with
  | nil => intro m; simp
  | cons v vs ih =>
    intro m
    simp only [List.foldl_cons, List.mem_cons, forall_eq_or_imp]
    by_cases hv : v < m
    · rw [if_pos hv]
      obtain ⟨h1, h2, h3⟩ := ih v
      refine ⟨Or.inr (h1.imp id id), le_trans h2 (le_of_lt hv), h2, h3⟩
    · rw [if_neg hv]
      obtain ⟨h1, h2, h3⟩ := ih m
      refine ⟨h1.imp id Or.inr, h2, le_trans h2 (le_of_not_lt_total hv), h3⟩

/-- C9. On a non-empty slice of totally ordered values, `MaxInSlice` returns an element of
the slice that is `>=` every element, `MinInSlice` returns an element of the slice that
is `<=` every element, and `MinInSlice values <= MaxInSlice values`. -/
theorem MaxInSlice_MinInSlice_spec (nan : α) (values : List α) (hne : values ≠ []) :
    (MaxInSlice nan values ∈ values ∧ ∀ x ∈ values, x ≤ MaxInSlice nan values) ∧
    (MinInSlice nan values ∈ values ∧ ∀ x ∈ values, MinInSlice nan values ≤ x) ∧
    MinInSlice nan values ≤ MaxInSlice nan values := by
  cases values with
  | nil => exact absurd rfl hne
  | cons v0 rest =>
    obtain ⟨a1, a2, a3⟩ := max_loop_spec rest v0
    obtain ⟨b1, b2, b3⟩ := min_loop_spec rest v0
    simp only [MaxInSlice, MinInSlice, List.mem_cons, forall_eq_or_imp]
    exact ⟨⟨a1, a2, a3⟩, ⟨b1, b2, b3⟩, le_trans b2 a2⟩

/-- Witness for C9 on the slice `[3, 7, 5, 1, 7]` (integers as the ordered values). -/
theorem MaxInSlice_MinInSlice_spec_witness :
    ([(3 : Int), 7, 5, 1, 7] ≠ []) ∧
    (MaxInSlice (0 : Int) [3, 7, 5, 1, 7] ∈ [(3 : Int), 7, 5, 1, 7] ∧
      ∀ x ∈ [(3 : Int), 7, 5, 1, 7], x ≤ MaxInSlice (0 : Int) [3, 7, 5, 1, 7]) ∧
    (MinInSlice (0 : Int) [3, 7, 5, 1, 7] ∈ [(3 : Int), 7, 5, 1, 7] ∧
      ∀ x ∈ [(3 : Int), 7, 5, 1, 7], MinInSlice (0 : Int) [3, 7, 5, 1, 7] ≤ x) ∧
    MinInSlice (0 : Int) [3, 7, 5, 1, 7] ≤ MaxInSlice (0 : Int) [3, 7, 5, 1, 7] :=
  ⟨by decide, MaxInSlice_MinInSlice_spec (0 : Int) [3, 7, 5, 1, 7] (by decide)⟩

end MinMaxTheorems

section FloatModelTheorems

/-- `log2Fuel` computes the binary logarithm: `2^L ≤ n < 2^(L+1)`. -/
theorem log2Fuel_spec :
    ∀ (fuel n : ℕ), 1 ≤ n → n ≤ fuel →
      2 ^ log2Fuel fuel n ≤ n ∧ n < 2 ^ (log2Fuel fuel n + 1)
  | 0, n, h1, h2 => by omega
  | fuel + 1, n, h1, h2 => by
    unfold log2Fuel
    by_cases hn : n < 2
    · rw [if_pos hn]
      have : n = 1 := by omega
      subst this
      exact ⟨by norm_num, by norm_num⟩
    · rw [if_neg hn]
      obtain ⟨ih1, ih2⟩ := log2Fuel_spec fuel (n / 2) (by omega) (by omega)
      rw [pow_succ] at ih2 ⊢
      rw [pow_succ, pow_succ]
      constructor <;> omega

/-- The exponent found by `ilog2` is a lower bound: `2 ^ ilog2 a ≤ a` for `a > 0`. -/
theorem two_zpow_ilog2_le (a : ℚ) (ha : 0 < a) : (2 : ℚ) ^ ilog2 a ≤ a := by
  unfold ilog2
  simp only
  split_ifs with h
  · exact h
  · have hnum : 0 < a.num := Rat.num_pos.mpr ha
    have hnn : 1 ≤ a.num.natAbs := by omega
    have hden : 1 ≤ a.den := a.den_pos
    obtain ⟨hn1, _⟩ := log2Fuel_spec a.num.natAbs a.num.natAbs hnn le_rfl
    obtain ⟨_, hd2⟩ := log2Fuel_spec a.den a.den hden le_rfl
    set ln := log2Fuel a.num.natAbs a.num.natAbs
    set ld := log2Fuel a.den a.den
    have e1 : (2 : ℚ) ^ ((ln : ℤ) - (ld : ℤ) - 1) = (2 : ℚ) ^ ln / (2 : ℚ) ^ (ld + 1) := by
      have : ((ln : ℤ) - (ld : ℤ) - 1) = (ln : ℤ) - ((ld + 1 : ℕ) : ℤ) := by push_cast; ring
      rw [this, zpow_natCast_sub_natCast₀ (by norm_num : (2 : ℚ) ≠ 0)]
    rw [e1]
    have hnq : (2 : ℚ) ^ ln ≤ (a.num.natAbs : ℚ) := by exact_mod_cast hn1
    have hdq : (a.den : ℚ) ≤ (2 : ℚ) ^ (ld + 1) := by exact_mod_cast hd2.le
    have hdpos : (0 : ℚ) < a.den := by exact_mod_cast hden
    have hval : a = (a.num.natAbs : ℚ) / (a.den : ℚ) := by
      have h2 : (a.num.natAbs : ℚ) = (a.num : ℚ) := by
        rw [Nat.cast_natAbs, abs_of_pos hnum]
      rw [h2]
      exact (Rat.num_div_den a).symm
    calc (2 : ℚ) ^ ln / (2 : ℚ) ^ (ld + 1)
        ≤ (a.num.natAbs : ℚ) / (2 : ℚ) ^ (ld + 1) := by gcongr
      _ ≤ (a.num.natAbs : ℚ) / (a.den : ℚ) := by gcongr
      _ = a := hval.symm

/-- An integer is its own nearest integer. -/
theorem roundHalfEven_intCast (N : ℤ) : roundHalfEven (N : ℚ) = N := by
  unfold roundHalfEven
  simp

/-- Every dyadic `m * 2^e` with `|m| < 2^53` and `-1074 ≤ e ≤ 971` is a `float64` value:
rounding returns it unchanged. -/
theorem exact_of_dyadic (m e : ℤ) (hm : |m| < 2 ^ 53) (he1 : -1074 ≤ e) (he2 : e ≤ 971) :
    Exact ((m : ℚ) * (2 : ℚ) ^ e) := by
  unfold Exact
  by_cases hm0 : m = 0
  · subst hm0
    simp [rnd]
  · have h2pos : ∀ k : ℤ, (0 : ℚ) < (2 : ℚ) ^ k := fun k => zpow_pos (by norm_num) k
    have hq0 : (m : ℚ) * (2 : ℚ) ^ e ≠ 0 :=
      mul_ne_zero (by exact_mod_cast hm0) (h2pos e).ne'
    have habs : |(m : ℚ) * (2 : ℚ) ^ e| = (|m| : ℤ) * (2 : ℚ) ^ e := by
      rw [abs_mul, abs_of_pos (h2pos e)]
      push_cast
      rfl
    have hapos : 0 < |(m : ℚ) * (2 : ℚ) ^ e| := abs_pos.mpr hq0
    have hmq : ((|m| : ℤ) : ℚ) < (2 : ℚ) ^ (53 : ℤ) := by
      have h53 : (2 : ℚ) ^ (53 : ℤ) = ((2 ^ 53 : ℤ) : ℚ) := by norm_num
      rw [h53]
      exact Int.cast_lt.mpr hm
    -- the exponent chosen by `rnd` is at most `e`
    have hL : ilog2 |(m : ℚ) * (2 : ℚ) ^ e| < 53 + e := by
      have h1 := two_zpow_ilog2_le _ hapos
      have h2 : |(m : ℚ) * (2 : ℚ) ^ e| < (2 : ℚ) ^ (53 + e) := by
        rw [habs, zpow_add₀ (by norm_num : (2 : ℚ) ≠ 0)]
        exact mul_lt_mul_of_pos_right hmq (h2pos e)
      exact (zpow_lt_zpow_iff_right₀ (by norm_num : (1 : ℚ) < 2)).mp (lt_of_le_of_lt h1 h2)
    set E := max (ilog2 |(m : ℚ) * (2 : ℚ) ^ e| - 52) (-1074) with hE
    have hEe : E ≤ e := max_le (by omega) he1
    obtain ⟨t, ht⟩ := Int.eq_ofNat_of_zero_le (sub_nonneg.mpr hEe)
    have hscaled : |(m : ℚ) * (2 : ℚ) ^ e| / (2 : ℚ) ^ E = ((|m| * 2 ^ t : ℤ) : ℚ) := by
      rw [habs, mul_div_assoc, ← zpow_sub₀ (by norm_num : (2 : ℚ) ≠ 0), ht, zpow_natCast]
      push_cast
      rfl
    have hr : (roundHalfEven (|(m : ℚ) * (2 : ℚ) ^ e| / (2 : ℚ) ^ E) : ℚ) * (2 : ℚ) ^ E
        = |(m : ℚ) * (2 : ℚ) ^ e| := by
      rw [hscaled, roundHalfEven_intCast, ← hscaled]
      exact div_mul_cancel₀ _ (h2pos E).ne'
    have hbig : ¬ (2 : ℚ) ^ (1024 : ℤ) ≤ |(m : ℚ) * (2 : ℚ) ^ e| := by
      rw [not_le, habs]
      have h3 : (2 : ℚ) ^ (1024 : ℤ) = (2 : ℚ) ^ (53 : ℤ) * (2 : ℚ) ^ (971 : ℤ) := by
        rw [← zpow_add₀ (by norm_num : (2 : ℚ) ≠ 0)]; norm_num
      rw [h3]
      calc ((|m| : ℤ) : ℚ) * (2 : ℚ) ^ e
          < (2 : ℚ) ^ (53 : ℤ) * (2 : ℚ) ^ e := mul_lt_mul_of_pos_right hmq (h2pos e)
        _ ≤ (2 : ℚ) ^ (53 : ℤ) * (2 : ℚ) ^ (971 : ℤ) := by
            apply mul_le_mul_of_nonneg_left _ (h2pos 53).le
            exact zpow_le_zpow_right₀ (by norm_num) he2
    unfold rnd
    rw [if_neg hq0]
    simp only
    rw [← hE, hr, if_neg hbig, if_neg hapos.ne']
    congr 1
    split_ifs with hneg
    · rw [abs_of_neg hneg, neg_neg]
    · rw [abs_of_nonneg (not_lt.mp hneg)]

/-- Every integer of magnitude below `2^53` is a `float64` value. -/
theorem exact_of_int (z : ℤ) (hz : |z| < 2 ^ 53) : Exact (z : ℚ) := by
  have h := exact_of_dyadic z 0 hz (by norm_num) (by norm_num)
  rwa [zpow_zero, mul_one] at h

/-- Reference points of the binary64 model: a tie rounds to the even neighbour
(`2^53 + 1` to `2^53`, `2^53 + 3` to `2^53 + 4`), half of the least subnormal rounds to
zero keeping the sign, the largest finite value plus half an ulp overflows, and
accumulation absorbs and overflows as in `float64`
(`Sum [1e16, 1, -1e16] = 0`, `Sum [1e308, 1e308] = +Inf`). -/
theorem float64_model_reference_points :
    rnd (2 ^ 53 + 1) = fin (2 ^ 53) ∧ rnd (2 ^ 53 + 3) = fin (2 ^ 53 + 4) ∧
    rnd (1 / 2 ^ 1075) = fin 0 ∧ rnd (-(1 / 2 ^ 1075)) = negZero ∧
    rnd (3 / 2 ^ 1075) = fin (1 / 2 ^ 1073) ∧
    rnd (2 ^ 1024 - 2 ^ 970) = posInf ∧
    rnd (2 ^ 1024 - 2 ^ 970 - 1) = fin (2 ^ 1024 - 2 ^ 971) ∧
    Sum [rnd (10 ^ 16), fin 1, rnd (-(10 ^ 16))] = fin 0 ∧
    Sum [rnd (10 ^ 308), rnd (10 ^ 308)] = posInf ∧
    Mean [] = nan ∧ Variance [] (fin 0) = nan ∧
    RoundPos nan = nan ∧ RoundPos posInf = posInf ∧ RoundNeg negInf = negInf ∧
    RoundPos (fin (5 / 2)) = fin 3 ∧ RoundNeg (fin (5 / 2)) = fin 2 ∧
    RoundNeg (fin (3 / 10)) = negZero := by
  decide!

end FloatModelTheorems

section RoundingTheorems

/-- C10 fails on the code.  `2^52 + 1` is an integer and a `float64` value, yet
`RoundPos` returns `2^52 + 2` and `RoundNeg` returns `2^52` for it; and for
`x = 1/2 - 2^-54` (the `float64` just below one half, `0.49999999999999994`)
`RoundPos x = 1` although `x + 1/2 < 1`, and `RoundNeg (-x) = -1`.  In each case the
sum `x ± 0.5` is not representable and rounds to the even neighbour before
`math.Floor` / `math.Ceil` is applied. -/
theorem RoundPos_RoundNeg_float64_misrounds :
    Exact (2 ^ 52 + 1) ∧ Exact (1 / 2 - 1 / 2 ^ 54) ∧
    RoundPos (fin (2 ^ 52 + 1)) = fin (2 ^ 52 + 2) ∧
    RoundNeg (fin (2 ^ 52 + 1)) = fin (2 ^ 52) ∧
    RoundPos (fin (1 / 2 - 1 / 2 ^ 54)) = fin 1 ∧
    RoundNeg (fin (-(1 / 2 - 1 / 2 ^ 54))) = fin (-1) ∧
    ¬ ((2 ^ 52 + 1 : ℚ) - 1 / 2 < 2 ^ 52 + 2 ∧ (2 ^ 52 + 2 : ℚ) ≤ (2 ^ 52 + 1) + 1 / 2) ∧
    ¬ ((1 / 2 - 1 / 2 ^ 54 : ℚ) - 1 / 2 < 1 ∧ (1 : ℚ) ≤ (1 / 2 - 1 / 2 ^ 54) + 1 / 2) := by
  decide!

end RoundingTheorems

section StatisticsTheorems

/-- C11 (as stated) fails on the code.  With `v` the `float64` nearest to `0.1`
(`3602879701896397 / 2^55`), `Mean [v, v, v]` is `v + 2^-56` (`0.10000000000000002`),
not `v`, and `Variance` of that slice around its own mean is `2^-112`, not `0`. -/
theorem Mean_Variance_constant_rounds :
    rnd (1 / 10) = fin (3602879701896397 / 2 ^ 55) ∧
    Exact (3602879701896397 / 2 ^ 55) ∧
    Mean (List.replicate 3 (fin (3602879701896397 / 2 ^ 55)))
      = fin (3602879701896397 / 2 ^ 55 + 1 / 2 ^ 56) ∧
    Mean (List.replicate 3 (fin (3602879701896397 / 2 ^ 55)))
      ≠ fin (3602879701896397 / 2 ^ 55) ∧
    Variance (List.replicate 3 (fin (3602879701896397 / 2 ^ 55)))
        (Mean (List.replicate 3 (fin (3602879701896397 / 2 ^ 55))))
      = fin (1 / 2 ^ 112) ∧
    Variance (List.replicate 3 (fin (3602879701896397 / 2 ^ 55)))
        (Mean (List.replicate 3 (fin (3602879701896397 / 2 ^ 55))))
      ≠ fin 0 := by
  decide!

/-- Rounding an exact zero gives `+0`. -/
theorem rnd_zero : rnd 0 = fin 0 := by
  simp [rnd]

/-- Finite addition is the rounded exact sum. -/
theorem add_fin_fin (a b : ℚ) : add (fin a) (fin b) = rnd (a + b) := rfl

/-- `v - v` is `+0` for every finite `v`. -/
theorem sub_self_fin (v : ℚ) : sub (fin v) (fin v) = fin 0 := by
  unfold sub neg
  by_cases hv : v = 0
  · subst hv
    rfl
  · simp only [hv, if_false, add_fin_fin, add_neg_cancel, rnd_zero]

/-- `(+0) * (+0) = +0`. -/
theorem mul_zero_zero : mul (fin 0) (fin 0) = fin 0 := by
  simp [mul, isNeg]

/-- The loop of `Sum` on copies of `v`: while every partial sum `k * v` is a `float64`
value, the accumulator after `k` additions is exactly `k * v`. -/
theorem sum_loop_exact (v : ℚ) (n : ℕ)
    (hsum : ∀ k : ℕ, 1 ≤ k → k ≤ n → Exact ((k : ℚ) * v)) :
    ∀ (j k : ℕ), k + j ≤ n →
      (List.replicate j (fin v)).foldl (fun sum x => add sum x) (fin ((k : ℚ) * v))
        = fin (((k + j : ℕ) : ℚ) * v) := by
  intro j
  induction j with
  | zero => intro k _; rfl
  | succ i ih =>
    intro k hk
    have hstep : add (fin ((k : ℚ) * v)) (fin v) = fin (((k + 1 : ℕ) : ℚ) * v) := by
      have h := hsum (k + 1) (by omega) (by omega)
      unfold Exact at h
      rw [add_fin_fin]
      have e : (k : ℚ) * v + v = ((k + 1 : ℕ) : ℚ) * v := by push_cast; ring
      rw [e, h]
    rw [List.replicate_succ, List.foldl_cons, hstep, ih (k + 1) (by omega)]
    have e : k + 1 + i = k + (i + 1) := by omega
    rw [e]

/-- The loop of `Variance` on copies of `v` around `mean = v` leaves the accumulator
at `+0`. -/
theorem variance_loop_zero (v : ℚ) :
    ∀ j : ℕ,
      (List.replicate j (fin v)).foldl
        (fun sum x => let diff := sub x (fin v); add sum (mul diff diff)) (fin 0) = fin 0 := by
  intro j
  induction j with
  | zero => rfl
  | succ i ih =>
    rw [List.replicate_succ, List.foldl_cons]
    simp only [sub_self_fin, mul_zero_zero, add_fin_fin, add_zero, rnd_zero]
    exact ih

/-- C11 (amended).  For every finite `float64` value `v` and length `n >= 1` such that
every partial sum `k * v` (`1 <= k <= n`) and `n` itself are `float64` values (so that no
addition of the `Sum` loop rounds), `Mean` of `n` copies of `v` is `v` and `Variance` of
that slice around its mean is `0`; and on every non-empty slice `Mean` is
`Sum(values) / float64(len(values))`. -/
theorem Mean_Variance_constant_exact (v : ℚ) (n : ℕ) (hn : 1 ≤ n)
    (hsum : ∀ k : ℕ, 1 ≤ k → k ≤ n → Exact ((k : ℚ) * v)) (hlen : Exact (n : ℚ)) :
    Mean (List.replicate n (fin v)) = fin v ∧
    Variance (List.replicate n (fin v)) (Mean (List.replicate n (fin v))) = fin 0 ∧
    ∀ values : List F64, values ≠ [] →
      Mean values = div (Sum values) (ofInt (values.length : ℤ)) := by
  have hlen0 : ¬ (List.replicate n (fin v)).length = 0 := by
    rw [List.length_replicate]; omega
  have hq : (n : ℚ) ≠ 0 := by
    have : 0 < n := hn
    exact_mod_cast this.ne'
  have hofInt : ofInt ((List.replicate n (fin v)).length : ℤ) = fin (n : ℚ) := by
    rw [List.length_replicate]
    unfold ofInt
    rw [Int.cast_natCast]
    exact hlen
  have hSum : Sum (List.replicate n (fin v)) = fin ((n : ℚ) * v) := by
    have h := sum_loop_exact v n hsum n 0 (by omega)
    simp only [Nat.cast_zero, zero_mul, zero_add] at h
    exact h
  have hmean : Mean (List.replicate n (fin v)) = fin v := by
    unfold Mean
    rw [if_neg hlen0, hSum, hofInt]
    by_cases hv : v = 0
    · subst hv
      simp [div, isNeg, hq]
    · have h1 := hsum 1 le_rfl hn
      unfold Exact at h1
      rw [Nat.cast_one, one_mul] at h1
      simp only [div, hq, hv, mul_eq_zero, or_self, if_false]
      rw [mul_div_cancel_left₀ v hq, h1]
  refine ⟨hmean, ?_, ?_⟩
  · rw [hmean]
    unfold Variance
    rw [if_neg hlen0, variance_loop_zero, hofInt]
    simp [div, isNeg, hq]
  · intro values hne
    unfold Mean
    rw [if_neg (by simpa using hne)]

/-- Witness for C11 (amended): three copies of `2.5`; the partial sums `2.5`, `5`, `7.5`
and the length `3` are `float64` values. -/
theorem Mean_Variance_constant_exact_witness :
    Mean (List.replicate 3 (fin (5 / 2))) = fin (5 / 2) ∧
    Variance (List.replicate 3 (fin (5 / 2))) (Mean (List.replicate 3 (fin (5 / 2)))) = fin 0 :=
  have h := Mean_Variance_constant_exact (5 / 2) 3 (by decide)
    (by intro k h1 h3; interval_cases k <;> decide!) (by decide!)
  ⟨h.1, h.2.1⟩

end StatisticsTheorems

section FeedValidationTheorems

variable {F : Type} [Zero F]

/-- C12. The slices produced by `GetOHLCVSlices` are accepted over their full range: for
every non-empty record list `data` with `n = len(data)`,
`ValidatePrice(0, n-1, high, low, close)` and `ValidateVolume(0, n-1, close, volume)` both
return `(Success, 0, n)`; for the empty list both return `InvalidParameter` for every
choice of indices. -/
theorem GetOHLCVSlices_validates (data : List (OHLCV F)) :
    (data ≠ [] →
      ValidatePrice 0 ((data.length : Int) - 1) (GetOHLCVSlices data).2.1
          (GetOHLCVSlices data).2.2.1 (GetOHLCVSlices data).2.2.2.1
        = (Success, 0, (data.length : Int)) ∧
      ValidateVolume 0 ((data.length : Int) - 1) (GetOHLCVSlices data).2.2.2.1
          (GetOHLCVSlices data).2.2.2.2
        = (Success, 0, (data.length : Int))) ∧
    (data = [] → ∀ startIdx endIdx : Int,
      (ValidatePrice startIdx endIdx (GetOHLCVSlices data).2.1
          (GetOHLCVSlices data).2.2.1 (GetOHLCVSlices data).2.2.2.1).1 = InvalidParameter ∧
      (ValidateVolume startIdx endIdx (GetOHLCVSlices data).2.2.2.1
          (GetOHLCVSlices data).2.2.2.2).1 = InvalidParameter) := by
  rw [GetOHLCVSlices_eq_map]
  refine ⟨?_, ?_⟩
  · intro hne
    have hpos : data.length ≠ 0 := fun h => hne (List.length_eq_zero.mp h)
    unfold ValidatePrice ValidateVolume
    simp only [List.length_map]
    repeat rw [if_neg (by omega)]
    refine ⟨?_, ?_⟩ <;> simp only [Prod.mk.injEq, true_and] <;> omega
  · intro hnil startIdx endIdx
    subst hnil
    exact ⟨rfl, rfl⟩

/-- Witness for C12: two records, validated over the full range `[0, 1]`; and the empty
record list, rejected at indices `(0, 0)`. -/
theorem GetOHLCVSlices_validates_witness :
    (ValidatePrice 0 1
        (GetOHLCVSlices [(⟨100, 1, 4, 0, 3, 50⟩ : OHLCV Int), ⟨160, 3, 6, 2, 5, 70⟩]).2.1
        (GetOHLCVSlices [(⟨100, 1, 4, 0, 3, 50⟩ : OHLCV Int), ⟨160, 3, 6, 2, 5, 70⟩]).2.2.1
        (GetOHLCVSlices [(⟨100, 1, 4, 0, 3, 50⟩ : OHLCV Int), ⟨160, 3, 6, 2, 5, 70⟩]).2.2.2.1
      = (Success, 0, 2) ∧
     ValidateVolume 0 1
        (GetOHLCVSlices [(⟨100, 1, 4, 0, 3, 50⟩ : OHLCV Int), ⟨160, 3, 6, 2, 5, 70⟩]).2.2.2.1
        (GetOHLCVSlices [(⟨100, 1, 4, 0, 3, 50⟩ : OHLCV Int), ⟨160, 3, 6, 2, 5, 70⟩]).2.2.2.2
      = (Success, 0, 2)) ∧
    ((ValidatePrice 0 0 (GetOHLCVSlices ([] : List (OHLCV Int))).2.1
        (GetOHLCVSlices ([] : List (OHLCV Int))).2.2.1
        (GetOHLCVSlices ([] : List (OHLCV Int))).2.2.2.1).1 = InvalidParameter ∧
     (ValidateVolume 0 0 (GetOHLCVSlices ([] : List (OHLCV Int))).2.2.2.1
        (GetOHLCVSlices ([] : List (OHLCV Int))).2.2.2.2).1 = InvalidParameter) :=
  ⟨(GetOHLCVSlices_validates
      [(⟨100, 1, 4, 0, 3, 50⟩ : OHLCV Int), ⟨160, 3, 6, 2, 5, 70⟩]).1 (by simp),
   (GetOHLCVSlices_validates ([] : List (OHLCV Int))).2 rfl 0 0⟩

end FeedValidationTheorems

end TALib
